import Mathlib

/-!
Shallow embedding of the dflow-cookbook scripts.

The repository is a set of TypeScript scripts calling a trading API and a
prediction-markets metadata API.  We embed the pure decision logic of the
scripts:

* `src/trading/declarative-trade.ts` — the `switch (result.status)` outcome
  classification, fill aggregation (`reduce` over `fills`), the
  `parseJsonOrThrow` helper, and the construction of the `/submit-intent`
  request body.
* `src/trading/imperative-trade.ts` — the `fetchOrder` response handling.
* `src/prediction-markets/prediction-market-lifecycle.ts` — `getEvents`,
  `getOrderbookForMaket`, `getTopActiveMarket`, `fetchOrder`, and the
  decision logic of `executeOrderForMarket` (best-bid extraction, side
  selection, probe scaling, skip conditions).

Network effects are modelled by passing the HTTP response (status flag and
body text) as a value; `JSON.parse` is modelled by an explicit parse
function argument (`none` = the runtime parse throws).  JavaScript numbers
carrying prices/volumes are modelled as `ℚ`; integer token amounts as `ℕ`;
`bigint` fill quantities as `ℤ`.
-/

namespace Dflow

/-- A minimal JSON value model (for payloads that the scripts pass through
without inspecting their structure). -/
inductive Json where
  | null : Json
  | bool (b : Bool) : Json
  | num (q : ℚ) : Json
  | str (s : String) : Json
  | arr (elems : List Json) : Json
  | obj (fields : List (String × Json)) : Json

/-- Field access on a JSON object (JavaScript property lookup; object keys
are unique, so the first match is the value). -/
def Json.get : Json → String → Option Json
  | .obj fields, key => (fields.find? (fun kv => kv.1 = key)).map (·.2)
  | _, _ => none

/-- An HTTP response as consumed by the scripts: `ok` is `response.ok`
(status in the 2xx range), `body` is the text of the response body. -/
structure HttpResponse where
  ok : Bool
  status : Nat
  statusText : String
  body : String
deriving DecidableEq

/-! ## declarative-trade.ts: order result classification -/

/-- Order status constants (`ORDER_STATUS` in declarative-trade.ts). -/
inductive OrderStatus where
  | CLOSED
  | PENDING_CLOSE
  | OPEN_EXPIRED
  | OPEN_FAILED
deriving DecidableEq

/-- One fill of an order (`interface Fill`); `bigint` quantities. -/
structure Fill where
  qtyIn : Int
  qtyOut : Int
deriving DecidableEq

/-- Result of `monitorOrder` (`interface MonitorOrderResult`). -/
structure MonitorOrderResult where
  status : OrderStatus
  fills : List Fill
  transactionError : Option String
deriving DecidableEq

/-- `result.fills.reduce((acc, x) => acc + x.qtyIn, 0n)`. -/
def totalIn (fills : List Fill) : Int :=
  fills.foldl (fun acc x => acc + x.qtyIn) 0

/-- `result.fills.reduce((acc, x) => acc + x.qtyOut, 0n)`. -/
def totalOut (fills : List Fill) : Int :=
  fills.foldl (fun acc x => acc + x.qtyOut) 0

/-- The outcome reported by the `switch (result.status)` block at the end of
`main` in declarative-trade.ts (both copies of the script have the same
block).  Each constructor corresponds to one `console.log` branch. -/
inductive Report where
  | success (totalIn totalOut : Int)
  | orderFailedNoFills
  | expired
  | openFailed (transactionError : Option String)
deriving DecidableEq

/-- The `switch (result.status)` classification in `main`. -/
def classifyResult (r : MonitorOrderResult) : Report :=
  match r.status with
  | .CLOSED =>
    if r.fills.length > 0 then
      .success (totalIn r.fills) (totalOut r.fills)
    else
      .orderFailedNoFills
  | .PENDING_CLOSE =>
    if r.fills.length > 0 then
      .success (totalIn r.fills) (totalOut r.fills)
    else
      .orderFailedNoFills
  | .OPEN_EXPIRED => .expired
  | .OPEN_FAILED => .openFailed r.transactionError

/-- The message text printed for a report (the `console.log` string of the
corresponding branch). -/
def reportMessage : Report → String
  | .success tin tout =>
      "Order succeeded: sent " ++ toString tin ++ ", received " ++ toString tout
  | .orderFailedNoFills => "Order failed"
  | .expired => "Transaction expired. Try again with a higher slippage tolerance."
  | .openFailed _ => "Order failed"

/-- Whether a report is produced via a thrown error.  The `switch` block
only calls `console.log`; no branch throws, so every report is non-throwing. -/
def reportThrows : Report → Bool := fun _ => false

/-! ## declarative-trade.ts: parseJsonOrThrow and request construction -/

/-- `parseJsonOrThrow(response, label)` from declarative-trade.ts: reads the
body text, errors on an empty body, then attempts `JSON.parse`.  The parse
function models `JSON.parse` (`none` = the parse throws). -/
def parseJsonOrThrow (parse : String → Option Json) (body : String)
    (label : String) : Except String Json :=
  if body = "" then
    .error (label ++ ": empty response body")
  else
    match parse body with
    | some j => .ok j
    | none => .error (label ++ ": failed to parse JSON")

/-- `requestQuote` / the intent fetch: on a non-2xx response the script
throws with the status and body; on 2xx it calls `response.json()`, i.e.
`JSON.parse` on the body (which throws on an empty or malformed body). -/
def requestQuote (parse : String → Option Json) (r : HttpResponse) :
    Except String Json :=
  if r.ok then
    match parse r.body with
    | some j => .ok j
    | none => .error "Unexpected end of JSON input"
  else
    .error ("Failed to request quote: " ++ toString r.status ++ " " ++ r.body)

/-- The body POSTed to `/submit-intent` by `submitIntent` /
the submit step of `main`:
`{ quoteResponse: intentData, signedOpenTransaction: base64(signed) }`.
`signSerialize` models deserialize → `sign(keypair)` → `serialize` →
base64, applied to the base64 `openTransaction` string of the intent. -/
def buildSubmitRequest (quote : Json) (signSerialize : String → String) :
    Option (List (String × Json)) :=
  match quote.get "openTransaction" with
  | some (Json.str t) =>
      some [("quoteResponse", quote),
            ("signedOpenTransaction", Json.str (signSerialize t))]
  | _ => none

/-! ## prediction-market-lifecycle.ts: data model -/

/-- `type MarketAccount` — outcome mints of a market account. -/
structure MarketAccount where
  yesMint : Option String
  noMint : Option String
deriving DecidableEq

/-- `type Market` — a prediction market as returned by the metadata API.
`accounts` is a JavaScript record keyed by settlement mint; modelled as an
association list with unique keys (first match wins on lookup). -/
structure Market where
  ticker : Option String
  title : Option String
  status : Option String
  volume : Option ℚ
  accounts : Option (List (String × MarketAccount))
deriving DecidableEq

/-- `type Event` — an event with nested markets. -/
structure Event where
  ticker : Option String
  title : Option String
  markets : Option (List Market)
deriving DecidableEq

/-- Payload of the events endpoint: `{ events?: Event[] }` (the script casts
without validation; the `events` field may be absent). -/
structure EventsPayload where
  events : Option (List Event)

/-- An orderbook as consumed by the lifecycle script: `yes_bids` / `no_bids`
are records keyed by price (a string parsed with `Number`; `none` models a
key that parses to NaN or an infinity) with sizes as values. -/
structure Orderbook where
  yes_bids : List (Option ℚ × ℚ)
  no_bids : List (Option ℚ × ℚ)

/-- `getEvents()`: on a non-2xx response it logs and returns `[]`; on an
empty 2xx body it logs and returns `[]`; otherwise `JSON.parse` (throwing on
malformed JSON) and `data.events ?? []`. -/
def getEvents (parse : String → Option EventsPayload) (r : HttpResponse) :
    Except String (List Event) :=
  if !r.ok then
    .ok []
  else if r.body = "" then
    .ok []
  else
    match parse r.body with
    | some data => .ok (data.events.getD [])
    | none => .error "Unexpected token in JSON"

/-- `getOrderbookForMaket(market)`: on a non-2xx response it logs and
returns `null`; on an empty 2xx body it logs and returns `null`; otherwise
`JSON.parse` of the body. -/
def getOrderbookForMaket (parse : String → Option Orderbook)
    (r : HttpResponse) : Except String (Option Orderbook) :=
  if !r.ok then
    .ok none
  else if r.body = "" then
    .ok none
  else
    match parse r.body with
    | some ob => .ok (some ob)
    | none => .error "Unexpected token in JSON"

/-- `Number(m.volume ?? 0)` — the volume used for market comparison. -/
def volumeOf (m : Market) : ℚ :=
  m.volume.getD 0

/-- The reducer of `getTopActiveMarket`: keep the current market only when
its volume is strictly greater than the best so far. -/
def topMarketStep (best : Option Market) (current : Market) : Option Market :=
  match best with
  | none => some current
  | some b => if volumeOf current > volumeOf b then some current else some b

/-- `getTopActiveMarket(markets)`: filter to `status === "active"`, then
`reduce` with `topMarketStep` starting from `null`. -/
def getTopActiveMarket (markets : List Market) : Option Market :=
  (markets.filter (fun m => m.status = some "active")).foldl topMarketStep none

/-- Specification-side selection rule, stated in the spec's own words:
"picking the market with maximum `volume` among active markets (ties broken
by encounter order — first one seen wins)" — i.e. the first active market
whose volume is ≥ the volume of every active market. -/
def specTopActiveMarket (markets : List Market) : Option Market :=
  (markets.filter (fun m => m.status = some "active")).find?
    (fun m => (markets.filter (fun m => m.status = some "active")).all
      (fun o => volumeOf o ≤ volumeOf m))

/-! ## prediction-market-lifecycle.ts: fetchOrder -/

/-- The result type of the lifecycle `fetchOrder` (all fields optional). -/
structure OrderResult where
  transaction : Option String
  inAmount : Option Nat
  outAmount : Option Nat
  errorCode : Option String
deriving DecidableEq

/-- The error body shape `{ msg?: string; code?: string }` that the
lifecycle `fetchOrder` tries to `JSON.parse` out of a non-2xx body. -/
structure ErrBody where
  msg : Option String
  code : Option String
deriving DecidableEq

/-- Whether `needle` occurs at the start of `hay` (character level). -/
def charsStart : List Char → List Char → Bool
  | _, [] => true
  | [], _ :: _ => false
  | c :: cs, d :: ds => c = d && charsStart cs ds

/-- Whether `needle` occurs anywhere in `hay` (character level). -/
def charsContain : List Char → List Char → Bool
  | [], needle => needle.isEmpty
  | c :: cs, needle => charsStart (c :: cs) needle || charsContain cs needle

/-- `s.includes(sub)` on JavaScript strings. -/
def strIncludes (s sub : String) : Bool :=
  charsContain s.data sub.data

/-- `s.toLowerCase()` (ASCII case mapping suffices for the source's
"zero out amount" check). -/
def strToLower (s : String) : String :=
  String.mk (s.data.map Char.toLower)

/-- The non-2xx branch of the lifecycle `fetchOrder`: try to `JSON.parse`
the error body; on success return `{ errorCode: parsed.code ?? "request_failed" }`;
on parse failure return `zero_out_amount` when the lowercased body contains
"zero out amount", else `request_failed`.  The raw body text is only logged,
never returned. -/
def fetchOrderErrBranch (parseErr : String → Option ErrBody)
    (errorText : String) : OrderResult :=
  match parseErr errorText with
  | some parsed =>
      { transaction := none, inAmount := none, outAmount := none,
        errorCode := some (parsed.code.getD "request_failed") }
  | none =>
      let isZeroOut := strIncludes (strToLower errorText) "zero out amount"
      { transaction := none, inAmount := none, outAmount := none,
        errorCode := some (if isZeroOut then "zero_out_amount" else "request_failed") }

/-- The lifecycle `fetchOrder`: a 2xx response is `response.json()` cast to
an `OrderResult` (`parseOk`, throwing on malformed JSON); a non-2xx
response is handled by `fetchOrderErrBranch` and returned as a value. -/
def fetchOrder (parseErr : String → Option ErrBody)
    (parseOk : String → Option OrderResult) (r : HttpResponse) :
    Except String OrderResult :=
  if r.ok then
    match parseOk r.body with
    | some o => .ok o
    | none => .error "Unexpected end of JSON input"
  else
    .ok (fetchOrderErrBranch parseErr r.body)

/-- `fetchOrder` of imperative-trade.ts: on a non-2xx response it throws an
error embedding the status text and the raw body; on 2xx it is
`response.json()` cast to `{ transaction: string }`. -/
def fetchOrderImperative (parseOk : String → Option OrderResult)
    (r : HttpResponse) : Except String OrderResult :=
  if r.ok then
    match parseOk r.body with
    | some o => .ok o
    | none => .error "Unexpected end of JSON input"
  else
    .error ("Failed to fetch order. Status: " ++ r.statusText ++ ". Error: " ++ r.body)

/-! ## prediction-market-lifecycle.ts: executeOrderForMarket -/

/-- The YES/NO side of a prediction market. -/
inductive Side where
  | yes
  | no
deriving DecidableEq

/-- The positive finite prices of a bids record:
`Object.keys(map).map(Number).filter((p) => Number.isFinite(p) && p > 0)`. -/
def positivePrices (bids : List (Option ℚ × ℚ)) : List ℚ :=
  bids.filterMap (fun kv =>
    match kv.1 with
    | some p => if 0 < p then some p else none
    | none => none)

/-- `yesPrices.length ? Math.max(...yesPrices) : null` — the best (maximum)
positive bid price of a side, or `none` when the side has none. -/
def bestBid (bids : List (Option ℚ × ℚ)) : Option ℚ :=
  match positivePrices bids with
  | [] => none
  | p :: ps => some (ps.foldl max p)

/-- The side-selection ternary of `executeOrderForMarket`: when both sides
have a best bid, YES iff `yesBestBid <= noBestBid`; otherwise the side that
has a best bid (the both-`none` case is unreachable behind the
empty-orderbook early return and falls to NO). -/
def chooseSide (yesBestBid noBestBid : Option ℚ) : Side :=
  match yesBestBid, noBestBid with
  | some y, some n => if y ≤ n then .yes else .no
  | some _, none => .yes
  | none, _ => .no

/-- `getOutcomeMintForMarket(market, side, settlementMint)`: prefer the
account keyed by the settlement mint, fall back to the first account value,
then project the side's mint. -/
def getOutcomeMintForMarket (market : Market) (side : Side)
    (settlementMint : String) : Option String :=
  let accounts := market.accounts.getD []
  let preferredAccount := (accounts.find? (fun kv => kv.1 = settlementMint)).map (·.2)
  let fallbackAccount := accounts.head?.map (·.2)
  match preferredAccount.orElse (fun _ => fallbackAccount) with
  | none => none
  | some account =>
    match side with
    | .yes => account.yesMint
    | .no => account.noMint

/-- `Math.ceil((1_000_000 * estimateIn) / estimateOut)` on integer
amounts. -/
def scaledAmountOf (estimateIn estimateOut : Nat) : Nat :=
  (1000000 * estimateIn + estimateOut - 1) / estimateOut

/-- The outcome of `executeOrderForMarket`, one constructor per exit path
(each non-`submitted` constructor is a `return null` / skip path of the
source; `submitted` means the signed transaction was sent, returning the
outcome mint). -/
inductive ExecOutcome where
  | emptyOrderbook
  | noOutcomeMint
  | noEstimateOut
  | exceedsMax
  | noOrderTransaction
  | notOneContract
  | submitted (outputMint : String) (scaledAmount : Nat)
deriving DecidableEq

/-- The decision logic of `executeOrderForMarket`.  The two `fetchOrder`
network calls are modelled by their results: `estimate` is the probe order
at `maxAmount`, and `fetchSecond n` is the result of the second `fetchOrder`
at amount `n` (`none` covering both a `null` result and a missing
`transaction` field, matching `!order?.transaction`). -/
def executeOrderForMarket (market : Market) (orderbook : Option Orderbook)
    (settlementMint : String) (maxAmount : Nat)
    (estimate : Option OrderResult) (fetchSecond : Nat → Option OrderResult) :
    ExecOutcome :=
  let yesBidsMap := (orderbook.map (·.yes_bids)).getD []
  let noBidsMap := (orderbook.map (·.no_bids)).getD []
  let yesBestBid := bestBid yesBidsMap
  let noBestBid := bestBid noBidsMap
  match yesBestBid, noBestBid with
  | none, none => .emptyOrderbook
  | _, _ =>
    let side := chooseSide yesBestBid noBestBid
    match getOutcomeMintForMarket market side settlementMint with
    | none => .noOutcomeMint
    | some outputMint =>
      let estimateOut := (estimate.bind (·.outAmount)).getD 0
      let estimateIn := (estimate.bind (·.inAmount)).getD maxAmount
      if estimateOut = 0 then
        .noEstimateOut
      else
        let scaledAmount := scaledAmountOf estimateIn estimateOut
        if scaledAmount > maxAmount then
          .exceedsMax
        else
          match fetchSecond scaledAmount with
          | none => .noOrderTransaction
          | some order =>
            match order.transaction with
            | none => .noOrderTransaction
            | some _ =>
              if order.outAmount ≠ some 1000000 then
                .notOneContract
              else
                .submitted outputMint scaledAmount

/-- The `string | null` value returned by `executeOrderForMarket` (the
outcome mint on the submitted path, `null` on every skip path). -/
def execReturn : ExecOutcome → Option String
  | .submitted m _ => some m
  | _ => none

/-! ## Helper lemmas -/

theorem foldl_add_qtyIn (l : List Fill) (a : Int) :
    l.foldl (fun acc x => acc + x.qtyIn) a = a + (l.map Fill.qtyIn).sum := by
  induction l generalizing a with
  | nil => simp
  | cons h t ih => simp [ih, add_assoc]

theorem foldl_add_qtyOut (l : List Fill) (a : Int) :
    l.foldl (fun acc x => acc + x.qtyOut) a = a + (l.map Fill.qtyOut).sum := by
  induction l generalizing a with
  | nil => simp
  | cons h t ih => simp [ih, add_assoc]

theorem totalIn_eq_sum (l : List Fill) : totalIn l = (l.map Fill.qtyIn).sum := by
  simp [totalIn, foldl_add_qtyIn]

theorem totalOut_eq_sum (l : List Fill) : totalOut l = (l.map Fill.qtyOut).sum := by
  simp [totalOut, foldl_add_qtyOut]

/-! ## Claims -/

/-- C6: the reported totals are the sums `totalIn = Σ qtyIn` and
`totalOut = Σ qtyOut` over the fill list, and the aggregation is
order-independent: any permutation of the fill list yields the same
totals. -/
theorem claim_C6_fill_aggregation (l1 l2 : List Fill) (h : l1.Perm l2) :
    totalIn l1 = (l1.map Fill.qtyIn).sum ∧
    totalOut l1 = (l1.map Fill.qtyOut).sum ∧
    totalIn l1 = totalIn l2 ∧
    totalOut l1 = totalOut l2 := by
  refine ⟨totalIn_eq_sum l1, totalOut_eq_sum l1, ?_, ?_⟩
  · rw [totalIn_eq_sum, totalIn_eq_sum]
    exact (h.map Fill.qtyIn).sum_eq
  · rw [totalOut_eq_sum, totalOut_eq_sum]
    exact (h.map Fill.qtyOut).sum_eq

/-- Witness for C6 at the spec's example `[{qtyIn:3,qtyOut:7},{qtyIn:2,qtyOut:5}]`
and its reversal. -/
theorem claim_C6_fill_aggregation_witness :
    totalIn [⟨3, 7⟩, ⟨2, 5⟩] = totalIn [⟨2, 5⟩, ⟨3, 7⟩] ∧
    totalOut [⟨3, 7⟩, ⟨2, 5⟩] = totalOut [⟨2, 5⟩, ⟨3, 7⟩] ∧
    totalIn [⟨3, 7⟩, ⟨2, 5⟩] = 5 ∧
    totalOut [⟨3, 7⟩, ⟨2, 5⟩] = 12 :=
  ⟨(claim_C6_fill_aggregation [⟨3, 7⟩, ⟨2, 5⟩] [⟨2, 5⟩, ⟨3, 7⟩]
      (List.Perm.swap (⟨2, 5⟩ : Fill) ⟨3, 7⟩ [])).2.2.1,
   (claim_C6_fill_aggregation [⟨3, 7⟩, ⟨2, 5⟩] [⟨2, 5⟩, ⟨3, 7⟩]
      (List.Perm.swap (⟨2, 5⟩ : Fill) ⟨3, 7⟩ [])).2.2.2,
   by decide, by decide⟩

/-- C1 counterexample: for the monitored result with status `CLOSED` and no
fills, the message printed is the literal `"Order failed"`, not
`"order did not fill"`. -/
theorem claim_C1_counterexample :
    reportMessage (classifyResult
      { status := .CLOSED, fills := [], transactionError := none }) = "Order failed" ∧
    reportMessage (classifyResult
      { status := .CLOSED, fills := [], transactionError := none }) ≠ "order did not fill" := by
  decide

/-- C1 (amended): when the monitored result has status `CLOSED` or
`PENDING_CLOSE` and an empty fill list, the workflow takes the no-fills
branch and prints the message `"Order failed"` via `console.log` — a plain
log, not a thrown error and not a fill report — rather than the message
`"order did not fill"`. -/
theorem claim_C1_no_fills_branch (r : MonitorOrderResult)
    (hs : r.status = .CLOSED ∨ r.status = .PENDING_CLOSE) (hf : r.fills = []) :
    classifyResult r = .orderFailedNoFills ∧
    reportMessage (classifyResult r) = "Order failed" ∧
    reportThrows (classifyResult r) = false := by
  rcases hs with hs | hs <;> simp [classifyResult, hs, hf, reportMessage, reportThrows]

/-- Witness for C1 (amended) at a concrete `PENDING_CLOSE` result. -/
theorem claim_C1_no_fills_branch_witness :
    classifyResult { status := .PENDING_CLOSE, fills := [], transactionError := none }
      = .orderFailedNoFills :=
  (claim_C1_no_fills_branch
    { status := .PENDING_CLOSE, fills := [], transactionError := none }
    (Or.inr rfl) rfl).1

/-- C2 counterexample: `getEvents` on a 2xx response with an empty body does
not fail — it returns the empty event list as a success value. -/
theorem claim_C2_counterexample :
    getEvents (fun _ => none)
      { ok := true, status := 200, statusText := "OK", body := "" } = .ok [] := by
  rfl

/-- C2 (amended): on a 2xx response with an empty body, the trading
operations fail — `parseJsonOrThrow` (declarative intent fetch and submit)
errors with "empty response body", and `requestQuote` / `response.json()`
errors because `JSON.parse` of an empty string throws — but the metadata
operations do not: `getEvents` logs and returns the empty event list and
`getOrderbookForMaket` logs and returns `null`, both non-error values. -/
theorem claim_C2_empty_body (pj : String → Option Json)
    (pq : String → Option Json) (pe : String → Option EventsPayload)
    (po : String → Option Orderbook) (r : HttpResponse) (label : String)
    (hok : r.ok = true) (hbody : r.body = "") (hparse : pq "" = none) :
    parseJsonOrThrow pj r.body label = .error (label ++ ": empty response body") ∧
    requestQuote pq r = .error "Unexpected end of JSON input" ∧
    getEvents pe r = .ok [] ∧
    getOrderbookForMaket po r = .ok none := by
  refine ⟨?_, ?_, ?_, ?_⟩
  · simp [parseJsonOrThrow, hbody]
  · simp [requestQuote, hok, hbody, hparse]
  · simp [getEvents, hok, hbody]
  · simp [getOrderbookForMaket, hok, hbody]

/-- Witness for C2 (amended) at a concrete empty-bodied 200 response. -/
theorem claim_C2_empty_body_witness :
    parseJsonOrThrow (fun _ => none) "" "intent response"
      = .error "intent response: empty response body" ∧
    getEvents (fun _ => none)
      { ok := true, status := 200, statusText := "OK", body := "" } = .ok [] :=
  ⟨(claim_C2_empty_body (fun _ => none) (fun _ => none) (fun _ => none) (fun _ => none)
      { ok := true, status := 200, statusText := "OK", body := "" }
      "intent response" rfl rfl rfl).1,
   (claim_C2_empty_body (fun _ => none) (fun _ => none) (fun _ => none) (fun _ => none)
      { ok := true, status := 200, statusText := "OK", body := "" }
      "intent response" rfl rfl rfl).2.2.1⟩

/-- C8: the body POSTed to `/submit-intent` carries the original quote
payload unchanged in its `quoteResponse` field, alongside the
base64-encoded signed open transaction. -/
theorem claim_C8_quote_echoed (quote : Json) (signSerialize : String → String)
    (body : List (String × Json))
    (h : buildSubmitRequest quote signSerialize = some body) :
    ((body.find? (fun kv => kv.1 = "quoteResponse")).map (·.2)) = some quote := by
  unfold buildSubmitRequest at h
  cases hq : quote.get "openTransaction" with
  | none => rw [hq] at h; cases h
  | some j =>
    cases j with
    | str t =>
      rw [hq] at h
      cases h
      rfl
    | null => rw [hq] at h; cases h
    | bool b => rw [hq] at h; cases h
    | num q => rw [hq] at h; cases h
    | arr xs => rw [hq] at h; cases h
    | obj fs => rw [hq] at h; cases h

/-- Witness for C8 at a concrete quote payload. -/
theorem claim_C8_quote_echoed_witness :
    ((([("quoteResponse", Json.obj [("openTransaction", Json.str "dHg=")]),
        ("signedOpenTransaction", Json.str "dHg=")]).find?
        (fun kv => kv.1 = "quoteResponse")).map (·.2))
      = some (Json.obj [("openTransaction", Json.str "dHg=")]) :=
  claim_C8_quote_echoed (Json.obj [("openTransaction", Json.str "dHg=")])
    (fun s => s) _ rfl

/-- C7 counterexample: a non-2xx response whose body `"oops"` is not JSON
yields the value `{ errorCode: "request_failed" }`; the raw body text is not
surfaced in the result (its only string field is `"request_failed"`, not
`"oops"`), and the operation does not even fail — it succeeds with this
value. -/
theorem claim_C7_counterexample :
    fetchOrder (fun _ => none) (fun _ => none)
      { ok := false, status := 500, statusText := "Internal Server Error", body := "oops" }
      = .ok { transaction := none, inAmount := none, outAmount := none,
              errorCode := some "request_failed" } ∧
    ("request_failed" : String) ≠ "oops" := by
  constructor
  · rfl
  · decide

/-- C7 (amended): on a non-2xx response the lifecycle `fetchOrder` returns
(does not throw) a result with no transaction whose `errorCode` is: the
parsed `code` field when the body parses as JSON carrying one; the fallback
`"request_failed"` when the body parses as JSON without a `code`; and, when
the body is not JSON, `"zero_out_amount"` or `"request_failed"` according
to a substring test for "zero out amount" — the raw body text is logged but
never returned.  The imperative `fetchOrder` instead throws an opaque error
whose message is a fixed prefix followed by the raw body text, without any
code extraction. -/
theorem claim_C7_non2xx_handling (parseErr : String → Option ErrBody)
    (parseOk : String → Option OrderResult) (r : HttpResponse)
    (hok : r.ok = false) :
    (∀ p c, parseErr r.body = some p → p.code = some c →
      fetchOrder parseErr parseOk r
        = .ok { transaction := none, inAmount := none, outAmount := none,
                errorCode := some c }) ∧
    (∀ p, parseErr r.body = some p → p.code = none →
      fetchOrder parseErr parseOk r
        = .ok { transaction := none, inAmount := none, outAmount := none,
                errorCode := some "request_failed" }) ∧
    (parseErr r.body = none →
      fetchOrder parseErr parseOk r
        = .ok { transaction := none, inAmount := none, outAmount := none,
                errorCode := some (if strIncludes (strToLower r.body) "zero out amount"
                  then "zero_out_amount" else "request_failed") }) ∧
    fetchOrderImperative parseOk r
      = .error ("Failed to fetch order. Status: " ++ r.statusText
          ++ ". Error: " ++ r.body) := by
  refine ⟨?_, ?_, ?_, ?_⟩
  · intro p c hp hc
    simp [fetchOrder, hok, fetchOrderErrBranch, hp, hc]
  · intro p hp hc
    simp [fetchOrder, hok, fetchOrderErrBranch, hp, hc]
  · intro hp
    simp [fetchOrder, hok, fetchOrderErrBranch, hp]
  · simp [fetchOrderImperative, hok]

/-- Witness for C7 (amended) at a concrete non-2xx response whose body
parses as `{ code: "zero output amount" }`. -/
theorem claim_C7_non2xx_handling_witness :
    fetchOrder (fun _ => some { msg := none, code := some "zero output amount" })
      (fun _ => none)
      { ok := false, status := 400, statusText := "Bad Request",
        body := "{ code: zero output amount }" }
      = .ok { transaction := none, inAmount := none, outAmount := none,
              errorCode := some "zero output amount" } :=
  (claim_C7_non2xx_handling
    (fun _ => some { msg := none, code := some "zero output amount" })
    (fun _ => none)
    { ok := false, status := 400, statusText := "Bad Request",
      body := "{ code: zero output amount }" } rfl).1
    { msg := none, code := some "zero output amount" } "zero output amount" rfl rfl

/-- C10: when exactly one of the YES/NO sides has a positive finite bid
price, the side with bids is selected regardless of its price; when neither
side has one, `executeOrderForMarket` reports an empty orderbook and
returns `null` without attempting an order. -/
theorem claim_C10_degenerate_orderbooks (ob : Orderbook) (market : Market)
    (settlementMint : String) (maxAmount : Nat) (estimate : Option OrderResult)
    (fetchSecond : Nat → Option OrderResult) :
    (∀ y : ℚ, bestBid ob.yes_bids = some y → bestBid ob.no_bids = none →
      chooseSide (bestBid ob.yes_bids) (bestBid ob.no_bids) = .yes) ∧
    (∀ n : ℚ, bestBid ob.yes_bids = none → bestBid ob.no_bids = some n →
      chooseSide (bestBid ob.yes_bids) (bestBid ob.no_bids) = .no) ∧
    (bestBid ob.yes_bids = none → bestBid ob.no_bids = none →
      executeOrderForMarket market (some ob) settlementMint maxAmount estimate
          fetchSecond = .emptyOrderbook ∧
      execReturn (executeOrderForMarket market (some ob) settlementMint maxAmount
          estimate fetchSecond) = none) := by
  refine ⟨?_, ?_, ?_⟩
  · intro y hy hn
    rw [hy, hn]
    rfl
  · intro n hy hn
    rw [hy, hn]
    rfl
  · intro hy hn
    have hexec : executeOrderForMarket market (some ob) settlementMint maxAmount
        estimate fetchSecond = .emptyOrderbook := by
      simp [executeOrderForMarket, hy, hn]
    exact ⟨hexec, by rw [hexec]; rfl⟩

/-- Witness for C10 at concrete one-sided and empty orderbooks. -/
theorem claim_C10_degenerate_orderbooks_witness :
    chooseSide (bestBid [(some (2 : ℚ), 5)]) (bestBid ([] : List (Option ℚ × ℚ)))
      = .yes ∧
    executeOrderForMarket
      { ticker := none, title := none, status := none, volume := none, accounts := none }
      (some { yes_bids := [(none, 3), (some 0, 1)], no_bids := [] })
      "USDC" 1000000 none (fun _ => none) = .emptyOrderbook :=
  ⟨((claim_C10_degenerate_orderbooks { yes_bids := [(some (2 : ℚ), 5)], no_bids := [] }
      { ticker := none, title := none, status := none, volume := none, accounts := none }
      "USDC" 1000000 none (fun _ => none)).1 2 (by decide) (by decide)),
   ((claim_C10_degenerate_orderbooks
      { yes_bids := [(none, 3), (some 0, 1)], no_bids := [] }
      { ticker := none, title := none, status := none, volume := none, accounts := none }
      "USDC" 1000000 none (fun _ => none)).2.2 (by decide) (by decide)).1⟩

/-- C4: when both sides have a best (maximum) positive bid, the side whose
best bid is lower is selected to buy; in particular best YES bid `0.62`
against best NO bid `0.41` selects NO. -/
theorem claim_C4_cheaper_side (yesBids noBids : List (Option ℚ × ℚ)) (y n : ℚ)
    (hy : bestBid yesBids = some y) (hn : bestBid noBids = some n) :
    (y < n → chooseSide (bestBid yesBids) (bestBid noBids) = .yes) ∧
    (n < y → chooseSide (bestBid yesBids) (bestBid noBids) = .no) ∧
    bestBid [(some (0.62 : ℚ), 10), (some 0.55, 3)] = some 0.62 ∧
    bestBid [(some (0.41 : ℚ), 7), (some 0.3, 2)] = some 0.41 ∧
    chooseSide (some (0.62 : ℚ)) (some (0.41 : ℚ)) = .no := by
  rw [hy, hn]
  refine ⟨?_, ?_, ?_, ?_, ?_⟩
  · intro hlt
    simp [chooseSide, le_of_lt hlt]
  · intro hlt
    simp [chooseSide, not_le.mpr hlt]
  · norm_num [bestBid, positivePrices, List.filterMap_cons, max_def]
  · norm_num [bestBid, positivePrices, List.filterMap_cons, max_def]
  · norm_num [chooseSide]

/-- Witness for C4 at concrete integer-priced books. -/
theorem claim_C4_cheaper_side_witness :
    chooseSide (bestBid [(some (3 : ℚ), 1)]) (bestBid [(some (2 : ℚ), 1)])
      = .no :=
  (claim_C4_cheaper_side [(some (3 : ℚ), 1)] [(some (2 : ℚ), 1)] 3 2
    (by decide) (by decide)).2.1 (by decide)

/-- Characterization of the `getTopActiveMarket` fold: starting from
`some b`, it returns the first market of `b :: l` (in encounter order)
attaining the maximum volume — everything before the result is strictly
smaller, everything after is ≤. -/
theorem topMarketStep_foldl_spec (l : List Market) (b : Market) :
    ∃ r l1 l2, l.foldl topMarketStep (some b) = some r ∧
      b :: l = l1 ++ r :: l2 ∧
      (∀ m ∈ l1, volumeOf m < volumeOf r) ∧
      (∀ m ∈ l2, volumeOf m ≤ volumeOf r) := by
  induction l generalizing b with
  | nil => exact ⟨b, [], [], rfl, rfl, by simp, by simp⟩
  | cons c t ih =>
    by_cases hgt : volumeOf c > volumeOf b
    · obtain ⟨r, l1, l2, hfold, hsplit, hlt, hle⟩ := ih c
      have hstep : (c :: t).foldl topMarketStep (some b)
          = t.foldl topMarketStep (some c) := by
        simp [List.foldl_cons, topMarketStep, hgt]
      cases l1 with
      | nil =>
        rw [List.nil_append] at hsplit
        have hc : c = r := (List.cons.injEq _ _ _ _ ▸ hsplit).1
        refine ⟨r, [b], l2, by rw [hstep]; exact hfold, ?_, ?_, hle⟩
        · simpa using congrArg (List.cons b) hsplit
        · intro m hm
          rw [List.mem_singleton] at hm
          subst hm
          rw [← hc]
          exact hgt
      | cons x l1t =>
        rw [List.cons_append] at hsplit
        have hc : c = x := (List.cons.injEq _ _ _ _ ▸ hsplit).1
        have ht : t = l1t ++ r :: l2 := (List.cons.injEq _ _ _ _ ▸ hsplit).2
        have hcr : volumeOf c < volumeOf r := by
          apply hlt
          rw [hc]
          exact List.mem_cons_self x l1t
        refine ⟨r, b :: c :: l1t, l2, by rw [hstep]; exact hfold, ?_, ?_, hle⟩
        · simp [ht, hc]
        · intro m hm
          rcases List.mem_cons.mp hm with hm | hm
          · subst hm; exact lt_trans hgt hcr
          rcases List.mem_cons.mp hm with hm | hm
          · subst hm; exact hcr
          · exact hlt m (List.mem_cons_of_mem x hm)
    · obtain ⟨r, l1, l2, hfold, hsplit, hlt, hle⟩ := ih b
      have hcb : volumeOf c ≤ volumeOf b := not_lt.mp hgt
      have hstep : (c :: t).foldl topMarketStep (some b)
          = t.foldl topMarketStep (some b) := by
        simp [List.foldl_cons, topMarketStep, hgt]
      cases l1 with
      | nil =>
        rw [List.nil_append] at hsplit
        have hb : b = r := (List.cons.injEq _ _ _ _ ▸ hsplit).1
        have ht : t = l2 := (List.cons.injEq _ _ _ _ ▸ hsplit).2
        refine ⟨r, [], c :: l2, by rw [hstep]; exact hfold, ?_, by simp, ?_⟩
        · simp [hb, ht]
        · intro m hm
          rcases List.mem_cons.mp hm with hm | hm
          · subst hm
            rw [← hb]
            exact hcb
          · exact hle m hm
      | cons x l1t =>
        rw [List.cons_append] at hsplit
        have hb : b = x := (List.cons.injEq _ _ _ _ ▸ hsplit).1
        have ht : t = l1t ++ r :: l2 := (List.cons.injEq _ _ _ _ ▸ hsplit).2
        have hbr : volumeOf b < volumeOf r := by
          apply hlt
          rw [hb]
          exact List.mem_cons_self x l1t
        refine ⟨r, b :: c :: l1t, l2, by rw [hstep]; exact hfold, ?_, ?_, hle⟩
        · simp [ht, hb]
        · intro m hm
          rcases List.mem_cons.mp hm with hm | hm
          · subst hm; exact hbr
          rcases List.mem_cons.mp hm with hm | hm
          · subst hm; exact lt_of_le_of_lt hcb hbr
          · exact hlt m (List.mem_cons_of_mem x hm)

/-- `find?` over a decomposition whose prefix wholly fails the predicate
returns the head of the suffix when it satisfies it. -/
theorem find?_append_first (p : Market → Bool) (l1 l2 : List Market)
    (r : Market) (h1 : ∀ m ∈ l1, p m = false) (hr : p r = true) :
    (l1 ++ r :: l2).find? p = some r := by
  induction l1 with
  | nil =>
    rw [List.nil_append]
    exact List.find?_cons_of_pos _ hr
  | cons x xs ih =>
    rw [List.cons_append, List.find?_cons_of_neg]
    · exact ih (fun m hm => h1 m (List.mem_cons_of_mem x hm))
    · simp [h1 x (List.mem_cons_self x xs)]

/-- C5: `getTopActiveMarket` considers only markets with status `"active"`
and returns the active market with maximum volume, ties broken by encounter
order (first one seen wins) — i.e. it coincides with the spec-side
selection rule `specTopActiveMarket` on every market list. -/
theorem claim_C5_top_active_market (markets : List Market) :
    getTopActiveMarket markets = specTopActiveMarket markets := by
  unfold getTopActiveMarket specTopActiveMarket
  generalize markets.filter (fun m => m.status = some "active") = active
  cases active with
  | nil => rfl
  | cons a t =>
    obtain ⟨r, l1, l2, hfold, hsplit, hlt, hle⟩ := topMarketStep_foldl_spec t a
    have hstep : (a :: t).foldl topMarketStep none
        = t.foldl topMarketStep (some a) := by
      simp [List.foldl_cons, topMarketStep]
    rw [hstep, hfold, hsplit]
    symm
    apply find?_append_first
    · intro m hm
      have hmr : volumeOf m < volumeOf r := hlt m hm
      apply Bool.eq_false_iff.mpr
      intro hall
      rw [List.all_eq_true] at hall
      have hrm := hall r (by simp)
      rw [decide_eq_true_eq] at hrm
      exact absurd hrm (not_le.mpr hmr)
    · rw [List.all_eq_true]
      intro o ho
      rw [decide_eq_true_eq]
      rcases List.mem_append.mp ho with ho | ho
      · exact le_of_lt (hlt o ho)
      · rcases List.mem_cons.mp ho with ho | ho
        · rw [ho]
        · exact hle o ho

/-- `Math.ceil` of an exact quotient: the source's
`Math.ceil((1_000_000 * estimateIn) / estimateOut)` computed on integers is
the rational ceiling. -/
theorem add_pred_div_eq_ceil (a b : Nat) (hb : 0 < b) :
    (a + b - 1) / b = ⌈(a : ℚ) / (b : ℚ)⌉₊ := by
  have hbq : (0 : ℚ) < (b : ℚ) := by exact_mod_cast hb
  apply le_antisymm
  · rw [← Nat.ceilDiv_eq_add_pred_div, ceilDiv_le_iff_le_smul hb, smul_eq_mul]
    have h1 : (a : ℚ) / b ≤ (⌈(a : ℚ) / b⌉₊ : ℚ) := Nat.le_ceil _
    rw [div_le_iff₀ hbq] at h1
    have h2 : (a : ℚ) ≤ ((b * ⌈(a : ℚ) / b⌉₊ : ℕ) : ℚ) := by
      push_cast
      linarith
    exact_mod_cast h2
  · rw [Nat.ceil_le, div_le_iff₀ hbq]
    have h2 : a ≤ b * ((a + b - 1) / b) := by
      have h3 := le_smul_ceilDiv (b := a) hb
      rwa [smul_eq_mul, Nat.ceilDiv_eq_add_pred_div] at h3
    calc (a : ℚ) ≤ ((b * ((a + b - 1) / b) : ℕ) : ℚ) := by exact_mod_cast h2
      _ = (((a + b - 1) / b : ℕ) : ℚ) * (b : ℚ) := by push_cast; ring

/-- `scaledAmountOf` is the rational ceiling of
`1_000_000 * estimateIn / estimateOut`. -/
theorem scaledAmountOf_eq_ceil (eIn eOut : Nat) (h : 0 < eOut) :
    scaledAmountOf eIn eOut = ⌈(1000000 * eIn : ℚ) / (eOut : ℚ)⌉₊ := by
  have := add_pred_div_eq_ceil (1000000 * eIn) eOut h
  rw [scaledAmountOf, this]
  norm_num

/-- Inversion of the submitted path of `executeOrderForMarket`: when the
probe estimate carries `inAmount = eIn` and `outAmount = eOut`, a submitted
outcome forces the order amount to be the scaled amount, within the
configured maximum, with the second fetched order returning exactly
1,000,000 output units. -/
theorem executeOrderForMarket_submitted (market : Market)
    (orderbook : Option Orderbook) (settlementMint : String) (maxAmount : Nat)
    (e : OrderResult) (fetchSecond : Nat → Option OrderResult) (eIn eOut : Nat)
    (hin : e.inAmount = some eIn) (hout : e.outAmount = some eOut)
    (m : String) (s : Nat)
    (h : executeOrderForMarket market orderbook settlementMint maxAmount
      (some e) fetchSecond = .submitted m s) :
    s = scaledAmountOf eIn eOut ∧ s ≤ maxAmount ∧
    ∃ o, fetchSecond (scaledAmountOf eIn eOut) = some o ∧
      o.outAmount = some 1000000 := by
  unfold executeOrderForMarket at h
  simp only [hin, hout, Option.some_bind, Option.getD_some] at h
  split at h
  · cases h
  split at h
  · cases h
  split at h
  · cases h
  split at h
  · cases h
  rename_i hmax
  split at h
  · cases h
  rename_i order hfetch
  split at h
  · cases h
  split at h
  · cases h
  rename_i houtam
  rw [not_not] at houtam
  rw [ExecOutcome.submitted.injEq] at h
  refine ⟨h.2.symm, ?_, order, hfetch, houtam⟩
  rw [← h.2]
  omega

/-- C3: the scaled order amount is `ceil(1_000_000 * estimateIn / estimateOut)`
(equal to 1,111,112 at the spec's example `estimateIn = 1_000_000`,
`estimateOut = 900_000`); every submitted order uses exactly this amount and
stays within the configured maximum; when the scaled amount exceeds the
maximum, or when the resulting order's output amount is not exactly
1,000,000 units, no order is submitted. -/
theorem claim_C3_probe_scaling (market : Market) (orderbook : Option Orderbook)
    (settlementMint : String) (maxAmount : Nat) (e : OrderResult)
    (fetchSecond : Nat → Option OrderResult) (eIn eOut : Nat)
    (hin : e.inAmount = some eIn) (hout : e.outAmount = some eOut)
    (hpos : 0 < eOut) :
    scaledAmountOf eIn eOut = ⌈(1000000 * eIn : ℚ) / (eOut : ℚ)⌉₊ ∧
    scaledAmountOf 1000000 900000 = 1111112 ∧
    (∀ m s, executeOrderForMarket market orderbook settlementMint maxAmount
        (some e) fetchSecond = .submitted m s →
      s = scaledAmountOf eIn eOut ∧ s ≤ maxAmount) ∧
    (scaledAmountOf eIn eOut > maxAmount →
      ∀ m s, executeOrderForMarket market orderbook settlementMint maxAmount
        (some e) fetchSecond ≠ .submitted m s) ∧
    ((∀ o, fetchSecond (scaledAmountOf eIn eOut) = some o →
        o.outAmount ≠ some 1000000) →
      ∀ m s, executeOrderForMarket market orderbook settlementMint maxAmount
        (some e) fetchSecond ≠ .submitted m s) := by
  refine ⟨scaledAmountOf_eq_ceil eIn eOut hpos, by decide, ?_, ?_, ?_⟩
  · intro m s h
    have hs := executeOrderForMarket_submitted market orderbook settlementMint
      maxAmount e fetchSecond eIn eOut hin hout m s h
    exact ⟨hs.1, hs.2.1⟩
  · intro hgt m s h
    have hs := executeOrderForMarket_submitted market orderbook settlementMint
      maxAmount e fetchSecond eIn eOut hin hout m s h
    omega
  · intro hcond m s h
    obtain ⟨_, _, o, ho, hoa⟩ := executeOrderForMarket_submitted market orderbook
      settlementMint maxAmount e fetchSecond eIn eOut hin hout m s h
    exact hcond o ho hoa

/-- Witness for C3 at the spec's example estimate (`estimateIn = 1_000_000`,
`estimateOut = 900_000`): the scaled amount 1,111,112 exceeds the maximum
1,000,000, so the trade is not submitted. -/
theorem claim_C3_probe_scaling_witness :
    scaledAmountOf 1000000 900000 = 1111112 ∧
    executeOrderForMarket
      { ticker := none, title := none, status := none, volume := none,
        accounts := some [("USDC", { yesMint := some "YES", noMint := some "NO" })] }
      (some { yes_bids := [(some (3 : ℚ), 1)], no_bids := [] })
      "USDC" 1000000
      (some { transaction := none, inAmount := some 1000000,
              outAmount := some 900000, errorCode := none })
      (fun _ => none)
      ≠ .submitted "YES" 1111112 :=
  ⟨(claim_C3_probe_scaling
      { ticker := none, title := none, status := none, volume := none,
        accounts := some [("USDC", { yesMint := some "YES", noMint := some "NO" })] }
      (some { yes_bids := [(some (3 : ℚ), 1)], no_bids := [] })
      "USDC" 1000000
      { transaction := none, inAmount := some 1000000,
        outAmount := some 900000, errorCode := none }
      (fun _ => none) 1000000 900000 rfl rfl (by decide)).2.1,
   (claim_C3_probe_scaling
      { ticker := none, title := none, status := none, volume := none,
        accounts := some [("USDC", { yesMint := some "YES", noMint := some "NO" })] }
      (some { yes_bids := [(some (3 : ℚ), 1)], no_bids := [] })
      "USDC" 1000000
      { transaction := none, inAmount := some 1000000,
        outAmount := some 900000, errorCode := none }
      (fun _ => none) 1000000 900000 rfl rfl (by decide)).2.2.2.1
     (by decide) "YES" 1111112⟩

end Dflow
